import Mathlib

/-!
Verification of the resend-box email sandbox core: the in-memory email store
(`server/store.ts`), the Resend-API ingestion path (`server/resend-api.ts`),
the SMTP ingestion normalizer (`server/smtp-server.ts`) and the query/command
web API (`server/web-api.ts`), shallowly embedded in Lean.

Conventions of the embedding:
* JavaScript objects become structures; TypeScript union types become
  inductives.  A field that may be `undefined` at runtime becomes `Option`.
* Mutation of the store is modelled by explicit state passing: an operation
  that mutates the store returns the new store.
* The environment-supplied values `nanoid()` and `Date.now()` are passed in
  as explicit parameters (`newId`, `now`).
* JavaScript truthiness on the value shapes that actually occur is made
  explicit (`""`, `undefined` and `null` are falsy; every array and object,
  including the empty array, is truthy).
* The diagnostic `raw` field of a stored record (original request payload /
  flattened header map) is not carried on the record: no verified property
  reads it back.  The header-flattening function that would populate it for
  SMTP mail, `normalizeHeaderValue`, is embedded in full.
* The optional `react` field of the API payload and its external renderer
  (`renderReactEmail`) are not modelled: validation precedes the render step
  and the step only affects the stored `html` body.
-/

/-- The canonical stored record (`Email` in `server/types.ts`), minus the
diagnostic `raw` payload (see the file comment). -/
structure Email where
  id : String
  source : String
  «from» : String
  «to» : List String
  cc : Option (List String)
  bcc : Option (List String)
  replyTo : Option (List String)
  subject : String
  text : Option String
  html : Option String
  createdAt : Nat
  deriving Repr, DecidableEq

/-- A candidate record before the store assigns `id` and `createdAt`
(`Omit<Email, 'id' | 'createdAt'>` in the source). -/
structure NewEmail where
  source : String
  «from» : String
  «to» : List String
  cc : Option (List String)
  bcc : Option (List String)
  replyTo : Option (List String)
  subject : String
  text : Option String
  html : Option String
  deriving Repr, DecidableEq

/-- The in-memory store (`EmailStore` in `server/types.ts`). -/
structure EmailStore where
  emails : List Email
  deriving Repr, DecidableEq

/-- `createStore` from `server/store.ts`. -/
def createStore : EmailStore := { emails := [] }

/-- `addEmail` from `server/store.ts`: assign `id` (`nanoid()`) and
`createdAt` (`Date.now()`), push onto the collection, return the finalized
record.  The two environment values are explicit parameters. -/
def addEmail (store : EmailStore) (email : NewEmail) (newId : String)
    (now : Nat) : Email × EmailStore :=
  let newEmail : Email :=
    { id := newId
      source := email.source
      «from» := email.«from»
      «to» := email.«to»
      cc := email.cc
      bcc := email.bcc
      replyTo := email.replyTo
      subject := email.subject
      text := email.text
      html := email.html
      createdAt := now }
  (newEmail, { emails := store.emails ++ [newEmail] })

/-- The comparator of `listEmails`: `(a, b) => b.createdAt - a.createdAt`
keeps `a` before `b` exactly when the comparator is `<= 0`, i.e. when
`b.createdAt <= a.createdAt`. -/
def emailLe (a b : Email) : Bool :=
  decide (b.createdAt ≤ a.createdAt)

/-- `listEmails` from `server/store.ts`:
`[...store.emails].sort((a, b) => b.createdAt - a.createdAt)`.
`Array.prototype.sort` is a stable sort acting on a copy; the stable
`List.mergeSort` with the same ordering computes the same list. -/
def listEmails (store : EmailStore) : List Email :=
  store.emails.mergeSort emailLe

/-- `findEmailById` from `server/store.ts`. -/
def findEmailById (store : EmailStore) (id : String) : Option Email :=
  store.emails.find? (fun email => email.id == id)

/-- `clearEmails` from `server/store.ts`: `store.emails = []`. -/
def clearEmails (_store : EmailStore) : EmailStore :=
  { emails := [] }

/-- `removeEmail` from `server/store.ts`: `findIndex` then `splice(index, 1)`;
returns whether a record was removed, together with the updated store. -/
def removeEmail (store : EmailStore) (id : String) : Bool × EmailStore :=
  match store.emails.findIdx? (fun email => email.id == id) with
  | none => (false, store)
  | some index => (true, { emails := store.emails.eraseIdx index })

/-- A TypeScript `string | string[]` value. -/
inductive StrOrList where
  | str (s : String)
  | list (l : List String)
  deriving Repr, DecidableEq

/-- The Resend mail-send payload (`ResendEmailPayload` in `server/types.ts`)
as it arrives from `req.body`: every field may be missing at runtime, which
is why the handler validates.  The `react` field is not modelled (see the
file comment). -/
structure ResendEmailPayload where
  «from» : Option String
  «to» : Option StrOrList
  subject : Option String
  text : Option String
  html : Option String
  replyTo : Option StrOrList
  cc : Option StrOrList
  bcc : Option StrOrList
  deriving Repr, DecidableEq

/-- JavaScript truthiness of an optional string: `undefined` and `""` are
falsy, every other string is truthy. -/
def strTruthy : Option String → Bool
  | none => false
  | some s => !(s == "")

/-- JavaScript truthiness of an optional `string | string[]` value:
`undefined` and `""` are falsy; every array, including `[]`, is truthy. -/
def solTruthy : Option StrOrList → Bool
  | none => false
  | some (.str s) => !(s == "")
  | some (.list _) => true

/-- The inner `normalizeArray` of `normalizeResendPayload`
(`server/resend-api.ts`): `if (!value) return []` then
`Array.isArray(value) ? value : [value]`. -/
def normalizeArray : Option StrOrList → List String
  | none => []
  | some (.str s) => if s == "" then [] else [s]
  | some (.list l) => l

/-- `normalizeResendPayload` from `server/resend-api.ts`.  The `from` and
`subject` fields are typed as plain strings in the source and the function is
only reached after validation has established they are truthy; a missing
value is mapped to `""` here so the function stays total. -/
def normalizeResendPayload (payload : ResendEmailPayload) : NewEmail :=
  { source := "resend"
    «from» := payload.«from».getD ""
    «to» := normalizeArray payload.«to»
    cc := if solTruthy payload.cc then some (normalizeArray payload.cc) else none
    bcc := if solTruthy payload.bcc then some (normalizeArray payload.bcc) else none
    replyTo := if solTruthy payload.replyTo then some (normalizeArray payload.replyTo) else none
    subject := payload.subject.getD ""
    text := payload.text
    html := payload.html }

/-- Response of the `POST /emails` handler: either the Resend-compatible
success body (whose `created_at` is an ISO-8601 rendering of the stored
`createdAt`, kept here as the raw millisecond value), the 400 validation
body, or the 500 body. -/
inductive ApiResponse where
  | ok (id : String) (created_at : Nat) («to» : List String) («from» : String)
  | badRequest (message : String)
  | serverError (message : String)
  deriving Repr, DecidableEq

/-- HTTP status code of an `ApiResponse`. -/
def ApiResponse.statusCode : ApiResponse → Nat
  | .ok .. => 200
  | .badRequest _ => 400
  | .serverError _ => 500

/-- The `POST /emails` handler of `createResendApiServer`
(`server/resend-api.ts`): validate `from`/`to`/`subject` by truthiness,
normalize, store, and answer with the Resend-compatible body.  `newId` and
`now` stand for `nanoid()` and `Date.now()` inside `addEmail`. -/
def postEmails (store : EmailStore) (payload : ResendEmailPayload)
    (newId : String) (now : Nat) : ApiResponse × EmailStore :=
  if !strTruthy payload.«from» || !solTruthy payload.«to» || !strTruthy payload.subject then
    (.badRequest "Missing required fields: from, to, subject", store)
  else
    let normalized := normalizeResendPayload payload
    let result := addEmail store normalized newId now
    (.ok result.1.id result.1.createdAt result.1.«to» result.1.«from», result.2)

/-- Response of a `GET`/`DELETE` handler of the sandbox web API
(`server/web-api.ts`). -/
inductive WebResponse where
  | okList (emails : List Email)
  | okEmail (email : Email)
  | okMessage (message : String)
  | notFound (error : String)
  | serverError (error : String)
  deriving Repr, DecidableEq

/-- HTTP status code of a `WebResponse`. -/
def WebResponse.statusCode : WebResponse → Nat
  | .okList _ => 200
  | .okEmail _ => 200
  | .okMessage _ => 200
  | .notFound _ => 404
  | .serverError _ => 500

/-- The `GET /sandbox/emails` handler of `createWebApiServer`
(`server/web-api.ts`).  The handler body is `listEmails(store)` wrapped in a
response; it reads nothing from the request, so the optional `?to=` query
value of the incoming request, modelled by `toQuery`, is ignored. -/
def getSandboxEmails (store : EmailStore) (toQuery : Option String) : WebResponse :=
  let _ := toQuery
  .okList (listEmails store)

/-- The `GET /sandbox/emails/:id` handler of `createWebApiServer`. -/
def getSandboxEmailById (store : EmailStore) (id : String) : WebResponse :=
  match findEmailById store id with
  | none => .notFound "Email not found"
  | some email => .okEmail email

/-- The `DELETE /sandbox/emails` handler of `createWebApiServer`. -/
def deleteAllSandboxEmails (store : EmailStore) : WebResponse × EmailStore :=
  (.okMessage "All emails cleared", clearEmails store)

/-- The `DELETE /sandbox/emails/:id` handler of `createWebApiServer`. -/
def deleteSandboxEmailById (store : EmailStore) (id : String) :
    WebResponse × EmailStore :=
  let result := removeEmail store id
  if result.1 then
    (.okMessage "Email deleted", result.2)
  else
    (.notFound "Email not found", result.2)

/-- A JavaScript value as it can appear inside a parsed mail header
(`normalizeHeaderValue` in `server/smtp-server.ts` receives `unknown`):
strings, arrays, plain objects (property lists), `null` and `undefined`.
Other primitives (numbers, booleans) do not occur in mailparser header
maps and are not modelled. -/
inductive JsValue where
  | vundefined
  | vnull
  | vstr (s : String)
  | varr (vs : List JsValue)
  | vobj (fields : List (String × JsValue))
  deriving Repr

/-- JavaScript property access `obj[key]`: the first binding of `key`, or
`undefined` when the object has none. -/
def jsGet (fields : List (String × JsValue)) (key : String) : JsValue :=
  match fields.find? (fun p => p.1 == key) with
  | some p => p.2
  | none => .vundefined

/-- JavaScript truthiness of a `JsValue`: `undefined`, `null` and `""` are
falsy; every other string, every array and every object is truthy. -/
def jsTruthy : JsValue → Bool
  | .vundefined => false
  | .vnull => false
  | .vstr s => !(s == "")
  | .varr _ => true
  | .vobj _ => true

/-- Whether a `JsValue` is exactly `undefined` (the `!== undefined` test). -/
def isUndef : JsValue → Bool
  | .vundefined => true
  | _ => false

mutual

/-- JavaScript `String(value)` / template-literal conversion, for the value
shapes of `JsValue`: `"undefined"`/`"null"` for the missing values, the
string itself, `Array.prototype.toString` (elements joined with `,`,
`null`/`undefined` elements becoming empty), `"[object Object]"` for plain
objects. -/
def jsToString : JsValue → String
  | .vundefined => "undefined"
  | .vnull => "null"
  | .vstr s => s
  | .varr vs => String.intercalate "," (jsToStringArr vs)
  | .vobj _ => "[object Object]"

/-- Element-wise conversion used by `Array.prototype.join`: `null` and
`undefined` elements convert to the empty string. -/
def jsToStringArr : List JsValue → List String
  | [] => []
  | .vundefined :: rest => "" :: jsToStringArr rest
  | .vnull :: rest => "" :: jsToStringArr rest
  | v :: rest => jsToString v :: jsToStringArr rest

end

/-- The escaping `JSON.stringify` applies inside a string literal, restricted
to the characters it meets here: `"` and `\` are escaped.  (Control-character
escapes are not modelled; no modelled input contains them.) -/
def jsonEscape (s : String) : String :=
  String.join (s.data.map (fun c =>
    if c == '"' then "\\\"" else if c == '\\' then "\\\\" else String.singleton c))

mutual

/-- `JSON.stringify` over `JsValue` trees.  From `normalizeHeaderValue` it is
only ever reached with an object argument; on a tree value it never throws,
so the `catch` branch of the source is unreachable. -/
def jsonStringify : JsValue → String
  | .vundefined => "undefined"
  | .vnull => "null"
  | .vstr s => "\"" ++ jsonEscape s ++ "\""
  | .varr vs => "[" ++ String.intercalate "," (jsonStringifyArr vs) ++ "]"
  | .vobj fields => "\x7b" ++ String.intercalate "," (jsonStringifyFields fields) ++ "\x7d"

/-- Array elements: `undefined` serializes as `null`. -/
def jsonStringifyArr : List JsValue → List String
  | [] => []
  | .vundefined :: rest => "null" :: jsonStringifyArr rest
  | v :: rest => jsonStringify v :: jsonStringifyArr rest

/-- Object fields: `undefined`-valued properties are omitted. -/
def jsonStringifyFields : List (String × JsValue) → List String
  | [] => []
  | (_, .vundefined) :: rest => jsonStringifyFields rest
  | (k, v) :: rest =>
    ("\"" ++ jsonEscape k ++ "\":" ++ jsonStringify v) :: jsonStringifyFields rest

end

/-- The `obj.address && typeof obj.address === 'string'` test of
`normalizeHeaderValue`: the usable address, when the property is a truthy
string. -/
def addressString : JsValue → Option String
  | .vstr a => if a == "" then none else some a
  | _ => none

/-- The `obj.text && typeof obj.text === 'string'` test of
`normalizeHeaderValue`. -/
def textString : JsValue → Option String
  | .vstr t => if t == "" then none else some t
  | _ => none

/-- The value fetched by `jsGet` is a strict subterm of the object. -/
theorem sizeOf_jsGet_lt (fields : List (String × JsValue)) (key : String) :
    sizeOf (jsGet fields key) < sizeOf (JsValue.vobj fields) := by
  have hfields : 1 ≤ sizeOf fields := by
    cases fields
    · simp
    · simp
      omega
  unfold jsGet
  cases h : fields.find? (fun p => p.1 == key) with
  | none =>
    simp only [JsValue.vundefined.sizeOf_spec, JsValue.vobj.sizeOf_spec]
    omega
  | some p =>
    have hm := List.mem_of_find?_eq_some h
    have hlt := List.sizeOf_lt_of_mem hm
    obtain ⟨k, v⟩ := p
    simp only [JsValue.vobj.sizeOf_spec, Prod.mk.sizeOf_spec] at hlt ⊢
    omega

/-- `normalizeHeaderValue` from `server/smtp-server.ts`: flatten an arbitrary
header value to one display string.  `null`/`undefined` become `String(value)`;
strings pass through; arrays recurse and join with `", "`; an object with a
truthy string `address` becomes `"name <address>"` when `name` is truthy and
the bare address otherwise; otherwise a defined `value` property is recursed
into; otherwise a truthy string `text` property is returned; otherwise the
object is `JSON.stringify`ed. -/
def normalizeHeaderValue : JsValue → String
  | .vnull => "null"
  | .vundefined => "undefined"
  | .vstr s => s
  | .varr vs => String.intercalate ", " (vs.attach.map (fun v => normalizeHeaderValue v.1))
  | .vobj fields =>
    match addressString (jsGet fields "address") with
    | some a =>
      if jsTruthy (jsGet fields "name") then
        jsToString (jsGet fields "name") ++ " <" ++ a ++ ">"
      else a
    | none =>
      if isUndef (jsGet fields "value") then
        match textString (jsGet fields "text") with
        | some t => t
        | none => jsonStringify (.vobj fields)
      else
        normalizeHeaderValue (jsGet fields "value")
decreasing_by
  · have := v.2
    simp_wf
    calc sizeOf v.1 < sizeOf vs := List.sizeOf_lt_of_mem v.2
    _ < 1 + sizeOf vs := by omega
  · simpa using sizeOf_jsGet_lt fields "value"

/-- One parsed mailbox entry (`{ address?: string, name?: string }` inside a
mailparser `AddressObject.value`). -/
structure MailboxEntry where
  address : Option String
  name : Option String
  deriving Repr, DecidableEq

/-- A mailparser `AddressObject`: the list of parsed mailbox entries.  (Its
`html`/`text` renditions are not read by the normalizer and are omitted.) -/
structure AddressObject where
  value : List MailboxEntry
  deriving Repr, DecidableEq

/-- A mailparser `AddressObject | AddressObject[]` field. -/
inductive AddrField where
  | one (obj : AddressObject)
  | many (objs : List AddressObject)
  deriving Repr, DecidableEq

/-- The fields of a mailparser `ParsedMail` that `normalizeSmtpMail` reads.
`html` is `string | false` in mailparser; `false` is modelled as `none`. -/
structure ParsedMail where
  «from» : Option AddressObject
  «to» : Option AddrField
  cc : Option AddrField
  bcc : Option AddrField
  replyTo : Option AddrField
  subject : Option String
  text : Option String
  html : Option String
  headers : List (String × JsValue)
  textAsHtml : Option String
  deriving Repr

/-- The inner `normalizeAddresses` of `normalizeSmtpMail`
(`server/smtp-server.ts`): `addresses.map(addr => addr.address || '')
.filter(Boolean)` — entries without a usable (truthy) address are dropped. -/
def normalizeAddresses (addresses : Option (List MailboxEntry)) : List String :=
  match addresses with
  | none => []
  | some l => (l.map (fun addr => addr.address.getD "")).filter (fun s => !(s == ""))

/-- The inner `normalizeAddressObject` of `normalizeSmtpMail`: accept one
`AddressObject` or a list of them and flatten all entry addresses. -/
def normalizeAddressObject (addrObj : Option AddrField) : List String :=
  match addrObj with
  | none => []
  | some (.one obj) => normalizeAddresses (some obj.value)
  | some (.many objs) => objs.flatMap (fun obj => normalizeAddresses (some obj.value))

/-- JavaScript `a || b` for an optional string `a`: the string when truthy,
otherwise the default. -/
def jsStrOr (v : Option String) (default : String) : String :=
  match v with
  | none => default
  | some s => if s == "" then default else s

/-- JavaScript `a || undefined` for an optional string: collapse `""` to
`undefined`. -/
def jsStrOrUndef (v : Option String) : Option String :=
  match v with
  | none => none
  | some s => if s == "" then none else some s

/-- `normalizeSmtpMail` from `server/smtp-server.ts` (minus the `raw`
diagnostic payload, see the file comment; its header map would be
`parsed.headers` mapped through `normalizeHeaderValue` via the `Map` branch
of the source).  `from` is `parsed.from?.value[0]?.address || 'unknown@localhost'`;
`subject` is `parsed.subject || '(no subject)'`. -/
def normalizeSmtpMail (parsed : ParsedMail) : NewEmail :=
  { source := "smtp"
    «from» := jsStrOr ((parsed.«from».bind (fun obj => obj.value.head?)).bind
      (fun entry => entry.address)) "unknown@localhost"
    «to» := normalizeAddressObject parsed.«to»
    cc := match parsed.cc with
      | some x => some (normalizeAddressObject (some x))
      | none => none
    bcc := match parsed.bcc with
      | some x => some (normalizeAddressObject (some x))
      | none => none
    replyTo := match parsed.replyTo with
      | some x => some (normalizeAddressObject (some x))
      | none => none
    subject := jsStrOr parsed.subject "(no subject)"
    text := jsStrOrUndef parsed.text
    html := jsStrOrUndef parsed.html }

/-- The success path of the SMTP `onData` callback
(`server/smtp-server.ts`): parse (done by the external mailparser
collaborator, so the `ParsedMail` is the input here), normalize, store.
The message is accepted — the callback is invoked without error — and the
store grows by the one new record. -/
def smtpIngest (store : EmailStore) (parsed : ParsedMail) (newId : String)
    (now : Nat) : EmailStore :=
  (addEmail store (normalizeSmtpMail parsed) newId now).2

/-! ## Concrete fixtures used by witnesses and counterexamples -/

/-- A stored record addressed to `user1@example.com`. -/
def sampleEmail1 : Email :=
  { id := "id1"
    source := "resend"
    «from» := "test@example.com"
    «to» := ["user1@example.com"]
    cc := none
    bcc := none
    replyTo := none
    subject := "Test Email 1"
    text := some "hello"
    html := none
    createdAt := 1000 }

/-- A stored record addressed to `user2@test.com`, newer than
`sampleEmail1`. -/
def sampleEmail2 : Email :=
  { id := "id2"
    source := "resend"
    «from» := "test@example.com"
    «to» := ["user2@test.com"]
    cc := none
    bcc := none
    replyTo := none
    subject := "Test Email 2"
    text := some "hi"
    html := none
    createdAt := 2000 }

/-- A valid mail-send payload. -/
def samplePayload : ResendEmailPayload :=
  { «from» := some "test@example.com"
    «to» := some (.str "user@example.com")
    subject := some "Test"
    text := none
    html := none
    replyTo := none
    cc := none
    bcc := none }

/-! ## C9: clear is unconditional and idempotent -/

/-- C9: `clearEmails` empties the store unconditionally for every starting
state, is idempotent, and the delete-all endpoint always answers 200
`All emails cleared` — also on an already-empty store, which it leaves
empty. -/
theorem clearEmails_unconditional_idempotent (store : EmailStore) :
    clearEmails store = { emails := [] }
    ∧ clearEmails (clearEmails store) = clearEmails store
    ∧ deleteAllSandboxEmails store = (.okMessage "All emails cleared", { emails := [] })
    ∧ (deleteAllSandboxEmails store).1.statusCode = 200
    ∧ deleteAllSandboxEmails { emails := [] } = (.okMessage "All emails cleared", { emails := [] }) := by
  refine ⟨rfl, rfl, rfl, rfl, rfl⟩

/-! ## C2: validation of the mail-send payload -/

/-- C2 counterexample: a payload whose `to` is the empty array — an empty
`to` — passes the truthiness validation (arrays are truthy in JavaScript),
so the handler answers 200 and the store gains a record, not the 400 with
an unchanged store that the claim requires. -/
theorem postEmails_accepts_empty_to_array :
    (postEmails createStore { samplePayload with «to» := some (.list []) } "id1" 1000).1.statusCode = 200
    ∧ (postEmails createStore { samplePayload with «to» := some (.list []) } "id1" 1000).2.emails ≠ [] := by
  decide

/-- C2 (amended): for every payload in which `from`, `to` or `subject` is
missing or an empty string (JavaScript-falsy), the handler responds 400 with
body message `Missing required fields: from, to, subject` and the store is
left unchanged.  (A `to` supplied as an empty array is truthy and is not
rejected; see the counterexample.) -/
theorem postEmails_missing_field_rejected (store : EmailStore)
    (payload : ResendEmailPayload) (newId : String) (now : Nat)
    (h : strTruthy payload.«from» = false ∨ solTruthy payload.«to» = false
      ∨ strTruthy payload.subject = false) :
    postEmails store payload newId now
      = (.badRequest "Missing required fields: from, to, subject", store) := by
  unfold postEmails
  rcases h with h | h | h <;> simp [h]

/-- C2 witness: a POST with missing `subject` gets the 400 body and leaves
the store unchanged. -/
theorem postEmails_missing_field_rejected_witness :
    postEmails createStore { samplePayload with subject := none } "id1" 1000
      = (.badRequest "Missing required fields: from, to, subject", createStore) :=
  postEmails_missing_field_rejected createStore
    { samplePayload with subject := none } "id1" 1000 (Or.inr (Or.inr (by decide)))

/-! ## C10: falsy optional address fields are stored as absent -/

/-- C10: in the API path, a `cc`, `bcc` or `replyTo` supplied as the empty
string is stored as absent (`undefined`), exactly like an omitted field —
every falsy supplied value for these fields is treated as omission. -/
theorem falsy_optional_address_fields_absent (payload : ResendEmailPayload) :
    ((payload.cc = none ∨ payload.cc = some (.str "")) →
      (normalizeResendPayload payload).cc = none)
    ∧ ((payload.bcc = none ∨ payload.bcc = some (.str "")) →
      (normalizeResendPayload payload).bcc = none)
    ∧ ((payload.replyTo = none ∨ payload.replyTo = some (.str "")) →
      (normalizeResendPayload payload).replyTo = none) := by
  refine ⟨?_, ?_, ?_⟩ <;>
    (rintro (h | h) <;> simp [normalizeResendPayload, h, solTruthy])

/-- C10 witness: `cc = ""`, `bcc` omitted and `replyTo = ""` are all stored
as absent. -/
theorem falsy_optional_address_fields_absent_witness :
    (normalizeResendPayload { samplePayload with
      cc := some (.str ""), replyTo := some (.str "") }).cc = none
    ∧ (normalizeResendPayload { samplePayload with
      cc := some (.str ""), replyTo := some (.str "") }).bcc = none
    ∧ (normalizeResendPayload { samplePayload with
      cc := some (.str ""), replyTo := some (.str "") }).replyTo = none :=
  ⟨(falsy_optional_address_fields_absent _).1 (Or.inr rfl),
    (falsy_optional_address_fields_absent _).2.1 (Or.inl rfl),
    (falsy_optional_address_fields_absent _).2.2 (Or.inr rfl)⟩

/-! ## C5: API-path normalization of the address fields -/

/-- C5 counterexample: `cc` supplied as the single string `""` is stored as
absent, not as the one-element sequence `[""]` that the claim, read over
every supplied single string, requires. -/
theorem normalizeResendPayload_empty_cc_string_absent :
    (normalizeResendPayload { samplePayload with cc := some (.str "") }).cc = none
    ∧ (normalizeResendPayload { samplePayload with cc := some (.str "") }).cc ≠ some [""] := by
  decide

/-- C5 (amended): API-path normalization maps each of `to`/`cc`/`bcc`/`replyTo`
supplied as a single non-empty string to the one-element sequence holding
that string, maps a supplied sequence to the same sequence (order preserved),
and keeps an absent optional field absent; an optional field supplied as the
empty string is stored as absent. -/
theorem normalizeResendPayload_address_fields (payload : ResendEmailPayload) :
    (∀ s : String, payload.«to» = some (.str s) → s ≠ "" →
      (normalizeResendPayload payload).«to» = [s])
    ∧ (∀ l : List String, payload.«to» = some (.list l) →
      (normalizeResendPayload payload).«to» = l)
    ∧ (∀ s : String, payload.cc = some (.str s) → s ≠ "" →
      (normalizeResendPayload payload).cc = some [s])
    ∧ (∀ l : List String, payload.cc = some (.list l) →
      (normalizeResendPayload payload).cc = some l)
    ∧ (payload.cc = none → (normalizeResendPayload payload).cc = none)
    ∧ (∀ s : String, payload.bcc = some (.str s) → s ≠ "" →
      (normalizeResendPayload payload).bcc = some [s])
    ∧ (∀ l : List String, payload.bcc = some (.list l) →
      (normalizeResendPayload payload).bcc = some l)
    ∧ (payload.bcc = none → (normalizeResendPayload payload).bcc = none)
    ∧ (∀ s : String, payload.replyTo = some (.str s) → s ≠ "" →
      (normalizeResendPayload payload).replyTo = some [s])
    ∧ (∀ l : List String, payload.replyTo = some (.list l) →
      (normalizeResendPayload payload).replyTo = some l)
    ∧ (payload.replyTo = none → (normalizeResendPayload payload).replyTo = none) := by
  refine ⟨?_, ?_, ?_, ?_, ?_, ?_, ?_, ?_, ?_, ?_, ?_⟩ <;>
    first
    | (intro s h hs
       simp [normalizeResendPayload, h, solTruthy, normalizeArray, hs])
    | (intro l h
       simp [normalizeResendPayload, h, solTruthy, normalizeArray])
    | (intro h
       simp [normalizeResendPayload, h, solTruthy])

/-- C5 witness: a single-string `to` becomes a one-element sequence and a
two-element `cc` sequence is kept as supplied. -/
theorem normalizeResendPayload_address_fields_witness :
    (normalizeResendPayload { samplePayload with
      cc := some (.list ["a@x.com", "b@x.com"]) }).«to» = ["user@example.com"]
    ∧ (normalizeResendPayload { samplePayload with
      cc := some (.list ["a@x.com", "b@x.com"]) }).cc = some ["a@x.com", "b@x.com"] :=
  ⟨(normalizeResendPayload_address_fields _).1 "user@example.com" rfl (by decide),
    (normalizeResendPayload_address_fields _).2.2.2.1 ["a@x.com", "b@x.com"] rfl⟩

/-! ## C4: the `to` field of stored records -/

/-- C4 counterexample: the payload whose `to` is the empty array passes
validation and is stored with an empty `to` sequence — a record produced
from an accepted input whose `to` is empty. -/
theorem postEmails_stores_empty_to :
    ((postEmails createStore { samplePayload with «to» := some (.list []) } "id1" 1000).2.emails.map
      (fun e => e.«to»)) = [[]] := by
  decide

/-- Every usable address of a mailbox-entry list survives
`normalizeAddresses`. -/
theorem normalizeAddresses_ne_nil_of_usable (value : List MailboxEntry)
    (entry : MailboxEntry) (hmem : entry ∈ value) (a : String)
    (ha : entry.address = some a) (hne : a ≠ "") :
    normalizeAddresses (some value) ≠ [] := by
  unfold normalizeAddresses
  have h1 : a ∈ value.map (fun addr => addr.address.getD "") := by
    exact List.mem_map.mpr ⟨entry, hmem, by simp [ha]⟩
  have h2 : a ∈ (value.map (fun addr => addr.address.getD "")).filter
      (fun s => !(s == "")) :=
    List.mem_filter_of_mem h1 (by simp [hne])
  exact List.ne_nil_of_mem h2

/-- C4 (amended): `to` is always a sequence of address strings, never a bare
string (it has sequence type in every produced record); it is non-empty
whenever the API payload supplied `to` as a non-empty string or a non-empty
sequence, and whenever the parsed SMTP mail carries at least one usable
(non-empty) recipient address.  An accepted payload with an empty `to` array,
or an SMTP mail with no usable recipient, is stored with `to` empty. -/
theorem stored_to_nonempty_of_usable (payload : ResendEmailPayload)
    (parsed : ParsedMail) :
    (∀ s : String, payload.«to» = some (.str s) → s ≠ "" →
      (normalizeResendPayload payload).«to» ≠ [])
    ∧ (∀ l : List String, payload.«to» = some (.list l) → l ≠ [] →
      (normalizeResendPayload payload).«to» ≠ [])
    ∧ (∀ obj : AddressObject, parsed.«to» = some (.one obj) →
      (∃ entry ∈ obj.value, ∃ a : String, entry.address = some a ∧ a ≠ "") →
      (normalizeSmtpMail parsed).«to» ≠ [])
    ∧ (∀ objs : List AddressObject, parsed.«to» = some (.many objs) →
      (∃ obj ∈ objs, ∃ entry ∈ obj.value, ∃ a : String,
        entry.address = some a ∧ a ≠ "") →
      (normalizeSmtpMail parsed).«to» ≠ []) := by
  refine ⟨?_, ?_, ?_, ?_⟩
  · intro s h hs
    simp [normalizeResendPayload, h, normalizeArray, hs]
  · intro l h hl
    simp [normalizeResendPayload, h, normalizeArray, hl]
  · rintro obj h ⟨entry, hmem, a, ha, hne⟩
    have := normalizeAddresses_ne_nil_of_usable obj.value entry hmem a ha hne
    simp [normalizeSmtpMail, normalizeAddressObject, h]
    simpa [normalizeAddresses] using this
  · rintro objs h ⟨obj, hobj, entry, hmem, a, ha, hne⟩
    have hsub := normalizeAddresses_ne_nil_of_usable obj.value entry hmem a ha hne
    simp [normalizeSmtpMail, normalizeAddressObject, h]
    exact ⟨obj, hobj, hsub⟩

/-- A parsed SMTP mail with one usable sender and one usable recipient. -/
def sampleParsedMail : ParsedMail :=
  { «from» := some { value := [{ address := some "a@x.com", name := some "Ann" }] }
    «to» := some (.one { value := [{ address := some "b@y.com", name := none }] })
    cc := none
    bcc := none
    replyTo := none
    subject := some "Hi"
    text := some "Hello"
    html := none
    headers := []
    textAsHtml := none }

/-- C4 witness: a single-string API `to` and a one-recipient SMTP mail both
produce a non-empty `to`. -/
theorem stored_to_nonempty_of_usable_witness :
    (normalizeResendPayload samplePayload).«to» ≠ []
    ∧ (normalizeSmtpMail sampleParsedMail).«to» ≠ [] :=
  ⟨(stored_to_nonempty_of_usable samplePayload sampleParsedMail).1
      "user@example.com" rfl (by decide),
    (stored_to_nonempty_of_usable samplePayload sampleParsedMail).2.2.1
      { value := [{ address := some "b@y.com", name := none }] } rfl
      ⟨{ address := some "b@y.com", name := none }, by decide, "b@y.com", rfl, by decide⟩⟩

/-! ## C6: SMTP placeholders for sender and subject -/

/-- An empty parsed SMTP mail: no sender, no recipients, no subject and no
bodies. -/
def emptyParsedMail : ParsedMail :=
  { «from» := none
    «to» := none
    cc := none
    bcc := none
    replyTo := none
    subject := some ""
    text := none
    html := none
    headers := []
    textAsHtml := none }

/-- C6: SMTP normalization substitutes the placeholder sender
`unknown@localhost` when the parsed from-address list is empty (or the
`from` field is absent), substitutes the placeholder subject `(no subject)`
when the subject is absent or empty, and in neither case rejects the
message: ingestion still appends exactly one record to the store. -/
theorem normalizeSmtpMail_placeholders (parsed : ParsedMail)
    (store : EmailStore) (newId : String) (now : Nat) :
    (parsed.«from» = none → (normalizeSmtpMail parsed).«from» = "unknown@localhost")
    ∧ (∀ obj : AddressObject, parsed.«from» = some obj → obj.value = [] →
      (normalizeSmtpMail parsed).«from» = "unknown@localhost")
    ∧ ((parsed.subject = none ∨ parsed.subject = some "") →
      (normalizeSmtpMail parsed).subject = "(no subject)")
    ∧ (smtpIngest store parsed newId now).emails.length = store.emails.length + 1 := by
  refine ⟨?_, ?_, ?_, ?_⟩
  · intro h
    simp [normalizeSmtpMail, h, jsStrOr]
  · intro obj h hv
    simp [normalizeSmtpMail, h, hv, jsStrOr]
  · rintro (h | h) <;> simp [normalizeSmtpMail, h, jsStrOr]
  · simp [smtpIngest, addEmail]

/-- C6 witness: the empty parsed mail is stored with both placeholders. -/
theorem normalizeSmtpMail_placeholders_witness :
    (normalizeSmtpMail emptyParsedMail).«from» = "unknown@localhost"
    ∧ (normalizeSmtpMail emptyParsedMail).subject = "(no subject)"
    ∧ (smtpIngest createStore emptyParsedMail "id1" 1000).emails.length
      = createStore.emails.length + 1 :=
  ⟨(normalizeSmtpMail_placeholders emptyParsedMail createStore "id1" 1000).1 rfl,
    (normalizeSmtpMail_placeholders emptyParsedMail createStore "id1" 1000).2.2.1
      (Or.inr rfl),
    (normalizeSmtpMail_placeholders emptyParsedMail createStore "id1" 1000).2.2.2⟩

/-! ## C8: delete-one semantics -/

/-- `findIndex` followed by `splice(index, 1)` removes exactly the first
matching element. -/
theorem eraseIdx_findIdx?_eq_eraseP {α : Type} (p : α → Bool) (l : List α) :
    ∀ i : Nat, l.findIdx? p = some i → l.eraseIdx i = l.eraseP p := by
  induction l with
  | nil =>
    intro i h
    simp [List.findIdx?] at h
  | cons a tl ih =>
    intro i h
    rw [List.findIdx?_cons] at h
    by_cases hpa : p a
    · simp [hpa] at h
      simp [← h, List.eraseIdx_cons_zero, List.eraseP_cons, hpa]
    · simp [hpa, List.findIdx?_succ] at h
      obtain ⟨j, hj, hij⟩ := h
      simp [← hij, List.eraseIdx_cons_succ, List.eraseP_cons, hpa, ih j hj]

/-- When an element satisfies `p`, `findIdx?` finds an index. -/
theorem findIdx?_isSome_of_exists {α : Type} (p : α → Bool) (l : List α)
    (h : ∃ x ∈ l, p x = true) : ∃ i : Nat, l.findIdx? p = some i := by
  rcases hf : l.findIdx? p with _ | i
  · rw [List.findIdx?_eq_none_iff] at hf
    obtain ⟨x, hx, hpx⟩ := h
    rw [hf x hx] at hpx
    cases hpx
  · exact ⟨i, rfl⟩

/-- Under unique ids, removing the first record with a given id removes
every record with that id. -/
theorem eraseP_id_eq_filter (l : List Email) (id : String)
    (hnd : (l.map Email.id).Nodup) (a : Email) (ha : a ∈ l) (haid : a.id = id) :
    l.eraseP (fun e => e.id == id) = l.filter (fun e => !(e.id == id)) := by
  induction l with
  | nil => cases ha
  | cons b tl ih =>
    have hnd2 : (∀ x ∈ tl, ¬x.id = b.id) ∧ (tl.map Email.id).Nodup := by
      simpa [List.nodup_cons] using hnd
    rw [List.eraseP_cons, List.filter_cons]
    by_cases hb : b.id = id
    · have htl : ∀ e ∈ tl, (!(e.id == id)) = true := by
        intro e he
        have h2 : e.id ≠ id := fun hc => (hnd2.1 e he) (by rw [hc, hb])
        simp [h2]
      simp [hb]
      exact (List.filter_eq_self.mpr htl).symm
    · have hatl : a ∈ tl := by
        rcases List.mem_cons.mp ha with h | h
        · exact absurd (h ▸ haid) hb
        · exact h
      have hbeq : (b.id == id) = false := by simp [hb]
      simp [hbeq]
      exact ih hnd2.2 hatl

/-- C8: `remove(id)` returns false and leaves the store unchanged — and the
HTTP layer answers 404 with error `Email not found` — when no record has the
id; it returns true and the store afterwards holds exactly the previous
records minus the first (under unique ids: the only) record whose id
matches, when one exists.  It is a total function: it never raises. -/
theorem removeEmail_found_or_not (store : EmailStore) (id : String) :
    ((∀ e ∈ store.emails, e.id ≠ id) →
      removeEmail store id = (false, store)
      ∧ deleteSandboxEmailById store id = (.notFound "Email not found", store))
    ∧ ((∃ e ∈ store.emails, e.id = id) →
      (removeEmail store id).1 = true
      ∧ (removeEmail store id).2.emails = store.emails.eraseP (fun e => e.id == id))
    ∧ ((store.emails.map Email.id).Nodup → (∃ e ∈ store.emails, e.id = id) →
      (removeEmail store id).2.emails = store.emails.filter (fun e => !(e.id == id))) := by
  refine ⟨?_, ?_, ?_⟩
  · intro h
    have hnone : store.emails.findIdx? (fun e => e.id == id) = none := by
      rw [List.findIdx?_eq_none_iff]
      intro e he
      simp [h e he]
    constructor
    · simp [removeEmail, hnone]
    · simp [deleteSandboxEmailById, removeEmail, hnone]
  · intro h
    obtain ⟨i, hi⟩ := findIdx?_isSome_of_exists (fun e => e.id == id) store.emails
      (by obtain ⟨e, he, heid⟩ := h; exact ⟨e, he, by simp [heid]⟩)
    constructor
    · simp [removeEmail, hi]
    · simp [removeEmail, hi, eraseIdx_findIdx?_eq_eraseP _ _ i hi]
  · intro hnd h
    obtain ⟨e, he, heid⟩ := h
    obtain ⟨i, hi⟩ := findIdx?_isSome_of_exists (fun e => e.id == id) store.emails
      ⟨e, he, by simp [heid]⟩
    rw [show (removeEmail store id).2.emails = store.emails.eraseIdx i by simp [removeEmail, hi]]
    rw [eraseIdx_findIdx?_eq_eraseP _ _ i hi]
    exact eraseP_id_eq_filter store.emails id hnd e he heid

/-- C8 witness: deleting `id1` from the two-record store removes exactly
that record; deleting an unknown id answers 404 and changes nothing. -/
theorem removeEmail_found_or_not_witness :
    ((removeEmail { emails := [sampleEmail1, sampleEmail2] } "id1").1 = true
      ∧ (removeEmail { emails := [sampleEmail1, sampleEmail2] } "id1").2.emails
        = [sampleEmail1, sampleEmail2].filter (fun e => !(e.id == "id1")))
    ∧ deleteSandboxEmailById { emails := [sampleEmail1, sampleEmail2] } "nope"
      = (.notFound "Email not found", { emails := [sampleEmail1, sampleEmail2] }) :=
  ⟨⟨((removeEmail_found_or_not { emails := [sampleEmail1, sampleEmail2] } "id1").2.1
      ⟨sampleEmail1, by decide, by decide⟩).1,
    (removeEmail_found_or_not { emails := [sampleEmail1, sampleEmail2] } "id1").2.2
      (by decide) ⟨sampleEmail1, by decide, by decide⟩⟩,
    ((removeEmail_found_or_not { emails := [sampleEmail1, sampleEmail2] } "nope").1
      (by decide)).2⟩

/-! ## C3: list is a stable newest-first presentation of the store -/

/-- The list comparator is transitive. -/
theorem emailLe_trans (a b c : Email) (h1 : emailLe a b = true)
    (h2 : emailLe b c = true) : emailLe a c = true := by
  simp [emailLe] at h1 h2 ⊢
  omega

/-- The list comparator is total. -/
theorem emailLe_total (a b : Email) : (emailLe a b || emailLe b a) = true := by
  simp [emailLe]
  omega

/-- Stability of `listEmails`: the records carrying any fixed `createdAt`
value appear in the presentation in exactly their insertion order. -/
theorem listEmails_filter_createdAt (store : EmailStore) (t : Nat) :
    (listEmails store).filter (fun e => e.createdAt == t)
      = store.emails.filter (fun e => e.createdAt == t) := by
  have hsub : (store.emails.filter (fun e => e.createdAt == t)).Sublist store.emails :=
    List.filter_sublist _
  have hpw : (store.emails.filter (fun e => e.createdAt == t)).Pairwise
      (fun a b => emailLe a b = true) := by
    rw [List.pairwise_iff_forall_sublist]
    intro a b hab
    have ha : a ∈ store.emails.filter (fun e => e.createdAt == t) :=
      hab.mem (by simp)
    have hb : b ∈ store.emails.filter (fun e => e.createdAt == t) :=
      hab.mem (by simp)
    have ha2 : a.createdAt = t := by simpa using List.of_mem_filter ha
    have hb2 : b.createdAt = t := by simpa using List.of_mem_filter hb
    simp [emailLe, ha2, hb2]
  have h2 : (store.emails.filter (fun e => e.createdAt == t)).Sublist (listEmails store) :=
    List.sublist_mergeSort emailLe_trans emailLe_total hpw hsub
  have h3 : ((listEmails store).filter (fun e => e.createdAt == t)).Perm
      (store.emails.filter (fun e => e.createdAt == t)) :=
    (List.mergeSort_perm store.emails emailLe).filter _
  have h4 : (store.emails.filter (fun e => e.createdAt == t)).Sublist
      ((listEmails store).filter (fun e => e.createdAt == t)) := by
    have h5 := h2.filter (fun e => e.createdAt == t)
    rwa [List.filter_filter, show
      (fun a : Email => (a.createdAt == t) && (a.createdAt == t))
        = (fun a : Email => a.createdAt == t) by funext a; cases a.createdAt == t <;> rfl]
      at h5
  exact (h4.eq_of_length h3.length_eq.symm).symm

/-- C3: `listEmails` returns all stored records (a permutation of the
collection), newest-first by `createdAt` (each adjacent pair is
non-increasing), keeping records of equal `createdAt` in their insertion
order, and returns the empty sequence on an empty store.  It reads the
collection through a copy: the store value is not part of the result. -/
theorem listEmails_newest_first_stable (store : EmailStore) :
    (listEmails store).Perm store.emails
    ∧ (listEmails store).Pairwise (fun a b => b.createdAt ≤ a.createdAt)
    ∧ (∀ t : Nat, (listEmails store).filter (fun e => e.createdAt == t)
        = store.emails.filter (fun e => e.createdAt == t))
    ∧ (store.emails = [] → listEmails store = []) := by
  refine ⟨List.mergeSort_perm store.emails emailLe, ?_,
    fun t => listEmails_filter_createdAt store t, ?_⟩
  · have h := List.sorted_mergeSort emailLe_trans emailLe_total store.emails
    exact h.imp (by intro a b hab; simpa [emailLe] using hab)
  · intro h
    simp [listEmails, h, List.mergeSort_nil]

/-- C3 witness: the empty store lists as the empty sequence, and a concrete
two-record store lists newest-first. -/
theorem listEmails_newest_first_stable_witness :
    listEmails createStore = []
    ∧ (listEmails { emails := [sampleEmail1, sampleEmail2] }).Pairwise
      (fun a b => b.createdAt ≤ a.createdAt) :=
  ⟨(listEmails_newest_first_stable createStore).2.2.2 rfl,
    (listEmails_newest_first_stable { emails := [sampleEmail1, sampleEmail2] }).2.1⟩

/-! ## C7: header-value flattening precedence -/

/-- C7: `normalizeHeaderValue` always produces a string (it is a total
function into `String`), with the claimed precedence: an address-like value
with a truthy display name flattens to `"Name <address>"`, one without a
display name to the bare address; a list flattens to its elements'
flattenings joined with `", "`; a remaining plain object falls back to its
`JSON.stringify` textual serialization (after the source's intermediate
`value`/`text` unwrapping steps fail to apply). -/
theorem normalizeHeaderValue_precedence (fields : List (String × JsValue))
    (vs : List JsValue) (a : String) :
    (addressString (jsGet fields "address") = some a →
      jsTruthy (jsGet fields "name") = true →
      normalizeHeaderValue (.vobj fields)
        = jsToString (jsGet fields "name") ++ " <" ++ a ++ ">")
    ∧ (addressString (jsGet fields "address") = some a →
      jsTruthy (jsGet fields "name") = false →
      normalizeHeaderValue (.vobj fields) = a)
    ∧ normalizeHeaderValue (.varr vs)
      = String.intercalate ", " (vs.map normalizeHeaderValue)
    ∧ (addressString (jsGet fields "address") = none →
      isUndef (jsGet fields "value") = true →
      textString (jsGet fields "text") = none →
      normalizeHeaderValue (.vobj fields) = jsonStringify (.vobj fields)) := by
  refine ⟨?_, ?_, ?_, ?_⟩
  · intro ha hn
    rw [normalizeHeaderValue, ha, hn]
    simp
  · intro ha hn
    rw [normalizeHeaderValue, ha, hn]
    simp
  · rw [normalizeHeaderValue]
    congr 1
    exact List.attach_map_coe vs normalizeHeaderValue
  · intro ha hv ht
    rw [normalizeHeaderValue, ha, ht]
    simp [hv]

/-- C7 witness: an address object with a display name flattens to
`Ann <a@x.com>`; one without flattens to the bare address. -/
theorem normalizeHeaderValue_precedence_witness :
    normalizeHeaderValue
      (.vobj [("address", .vstr "a@x.com"), ("name", .vstr "Ann")]) = "Ann <a@x.com>"
    ∧ normalizeHeaderValue (.vobj [("address", .vstr "a@x.com")]) = "a@x.com" := by
  constructor
  · rw [(normalizeHeaderValue_precedence
      [("address", .vstr "a@x.com"), ("name", .vstr "Ann")] [] "a@x.com").1
      (by decide) (by decide)]
    simp [jsGet, jsToString]
  · exact (normalizeHeaderValue_precedence
      [("address", .vstr "a@x.com")] [] "a@x.com").2.1 (by decide) (by decide)

/-! ## C1: the recipient filter of the list endpoint -/

/-- ASCII lowercasing of a string, the effect of `toLowerCase()` on the
address strings involved. -/
def lowerStr (s : String) : String :=
  ⟨s.data.map Char.toLower⟩

/-- Whether `needle` occurs as a contiguous subsequence of `hay`
(JavaScript `String.prototype.includes`). -/
def charsContain (needle : List Char) : List Char → Bool
  | [] => needle.isEmpty
  | c :: rest => needle.isPrefixOf (c :: rest) || charsContain needle rest

/-- Modelled from the spec: the recipient filter of
`GET /<prefix>/emails?to=<substring>` — a record matches when at least one
address in its `to` list contains the given substring case-insensitively.
This predicate does not exist in `server/web-api.ts`: the handler ignores
the query string (see `getSandboxEmails`), although the repository's README,
CLAUDE.md, skill documents and integration tests all specify it. -/
def matchesRecipient (e : Email) (needle : String) : Bool :=
  e.«to».any (fun addr => charsContain (lowerStr needle).data (lowerStr addr).data)

/-- C1: the claim fails on the handler — with the store holding
`sampleEmail1` (whose `to` contains the filter string) and `sampleEmail2`
(whose `to` matches it on no address), the list request carrying the
recipient filter `user1@example.com` still returns both records, including
`sampleEmail2`, and returns them identically to the unfiltered request. -/
theorem getSandboxEmails_ignores_recipient_filter :
    getSandboxEmails { emails := [sampleEmail1, sampleEmail2] }
        (some "user1@example.com")
      = .okList [sampleEmail2, sampleEmail1]
    ∧ matchesRecipient sampleEmail2 "user1@example.com" = false
    ∧ matchesRecipient sampleEmail1 "user1@example.com" = true
    ∧ getSandboxEmails { emails := [sampleEmail1, sampleEmail2] }
        (some "user1@example.com")
      = getSandboxEmails { emails := [sampleEmail1, sampleEmail2] } none := by
  refine ⟨?_, by decide, by decide, rfl⟩
  simp [getSandboxEmails, listEmails, List.mergeSort, sampleEmail1, sampleEmail2, emailLe]
